import Mathlib

/-!
Verification of the process-controller core of the food-processing cell
(`src/main_flow.py`, `src/dashboard_ui.py`, `src/order_manager.py`).

Weights are modelled as rationals (`ℚ`); the Python floats only ever undergo
addition, subtraction and comparison here, and every claim is about the exact
branch structure, not rounding.  Loops that poll hardware forever are modelled
as structural recursion over a finite schedule of inputs (one schedule entry
per iteration: the stop-flag value observed at the loop head and the optional
sensor reading); running out of schedule models "the loop is still running",
which no theorem below treats as an exit.

The controller is modelled as composed with the repository's own
`DashboardUI`: the calls `ui.safe_update_scale_reading(...)`
(`src/main_flow.py` lines 180, 188, 259 and 266) and
`ui.safe_update_orders(...)` (`src/order_manager.py:107`) name methods
`DashboardUI` does not define (it has `safe_update_order`, singular, and no
scale-reading update at all, with no dynamic attribute fallback), so every
such call raises `AttributeError`; the model makes these raises explicit.
-/

/-- Threshold hard-coded at `src/main_flow.py:200` (`if delta > 5000`). -/
def MAX_PLAUSIBLE_JUMP : ℚ := 5000

/-- Result of one pass of the mass filter: the accepted delta, whether the
"suspicious weight jump" warning was logged, and the value stored back into
`last_weight`. -/
structure FilterOut where
  delta : ℚ
  warned : Bool
  newLast : ℚ
deriving DecidableEq

/-- Mass filter, `src/main_flow.py:186-202` and the `last_weight = w` update at
line 214: a missing reading is replaced by `last` (line 190-191), `delta =
w - last` (line 194), a negative delta is clamped to `0` (lines 195-197), a
delta above `5000` is clamped to `0` with a logged warning (lines 200-202), and
the raw `w` always becomes the new `last`. -/
def massFilter (last : ℚ) (wOpt : Option ℚ) : FilterOut :=
  let w := wOpt.getD last
  let d0 := w - last
  let d1 := if d0 < 0 then 0 else d0
  if MAX_PLAUSIBLE_JUMP < d1 then ⟨0, true, w⟩ else ⟨d1, false, w⟩

/-- Detector state carried through the sampling loop of
`_run_cutter_until_weight_reached`: the accumulated processed mass for the
ingredient and `no_change_count`. -/
structure DetState where
  acc : ℚ
  ncc : Nat
deriving DecidableEq

/-- Initial detector state: nothing accumulated, `no_change_count = 0`
(`src/main_flow.py:181`). -/
def dInit : DetState := ⟨0, 0⟩

/-- One detector update, `src/main_flow.py:204-212`: a delta at or above
`weight_stable_threshold` is added to the accumulator and resets
`no_change_count`; any other delta leaves the accumulator unchanged and
increments `no_change_count`. -/
def detStep (S : ℚ) (st : DetState) (d : ℚ) : DetState :=
  if S ≤ d then ⟨st.acc + d, 0⟩ else ⟨st.acc, st.ncc + 1⟩

/-- Detector state after a whole sequence of deltas, ignoring early exit. -/
def detFold (S : ℚ) (st : DetState) (ds : List ℚ) : DetState :=
  ds.foldl (detStep S) st

/-- Sum of exactly those deltas that are at or above the stable threshold. -/
def sumGE (S : ℚ) (ds : List ℚ) : ℚ :=
  (ds.filter (fun d => S ≤ d)).sum

/-- Outcome of the detector on one cut-cycle. -/
inductive DetOutcome where
  | Done
  | Stalled
  | Running
deriving DecidableEq

/-- Result of running the detector over a delta sequence: final state, outcome,
and how many deltas were consumed before exiting. -/
structure DetRunOut where
  state : DetState
  outcome : DetOutcome
  used : Nat
deriving DecidableEq

/-- Detector run over a delta sequence, following the exit structure of the
sampling loop in `src/main_flow.py:204-241`: after each update the completion
check `processed >= required` (lines 217-228) is made first, then the stall
check `no_change_count >= no_change_checks` (lines 231-241); otherwise the loop
continues with the next delta. -/
def detRun (S T : ℚ) (limit : Nat) (st : DetState) : List ℚ → DetRunOut
  | [] => ⟨st, DetOutcome.Running, 0⟩
  | d :: ds =>
    let st1 := detStep S st d
    if T ≤ st1.acc then ⟨st1, DetOutcome.Done, 1⟩
    else if limit ≤ st1.ncc then ⟨st1, DetOutcome.Stalled, 1⟩
    else
      let r := detRun S T limit st1 ds
      ⟨r.state, r.outcome, r.used + 1⟩

/-- UI and actuator events emitted by the controller, in program order.  Log
lines are not recorded; everything the claims mention (prompts,
acknowledgement waits, actuator commands, turntable motion, the final report)
is, and `uiRaise` records the `AttributeError` raised by a call to the
missing `DashboardUI.safe_update_scale_reading` method. -/
inductive Ev where
  | showProcessing
  | activate
  | deactivate
  | rotate
  | showStall
  | promptPlace
  | analyze
  | promptReplace
  | waitAck
  | uiRaise
  | reportGrams (g : ℚ)
deriving DecidableEq

/-- Schedule for one call of `_resume_until_stable`: whether
`cutter.activate()` succeeds, the initial `load_cell.get_weight()` reading
(line 258), and one `(stop-flag, reading)` pair per settle-loop iteration.
With the repository's `DashboardUI` the settle loop is unreachable (see
`resumeRun`), so the reading and the schedule are never consulted. -/
structure ResumeEnv where
  activateOk : Bool
  initReading : Option ℚ
  steps : List (Bool × Option ℚ)
deriving DecidableEq

/-- Result of `_resume_until_stable`: how many `cutter.deactivate()` calls it
issued, whether the actuator is active afterwards, whether an exception is
propagating out of the call, and the recorded events. -/
structure ResumeResult where
  deacts : Nat
  active : Bool
  raised : Bool
  evs : List Ev
deriving DecidableEq

/-- Whole call of `_resume_until_stable`, `src/main_flow.py:249-278`, as
composed with the repository's own `DashboardUI`: a failed
`cutter.activate()` logs and returns at once (no deactivation; the actuator
stays inactive from the completion branch that precedes this call).  After a
successful activation, line 259 calls
`self.ui.safe_update_scale_reading(last)` — a method `DashboardUI` does not
define — between the `activate()` and the `try`/`finally`, so the call always
raises `AttributeError` there: the exception propagates with the actuator
left active and no deactivation issued, and the settle loop at lines 262-278
is unreachable. -/
def resumeRun (renv : ResumeEnv) : ResumeResult :=
  if renv.activateOk then ⟨0, true, true, [Ev.activate, Ev.uiRaise]⟩
  else ⟨0, false, false, []⟩

/-- Schedule for one call of `_run_cutter_until_weight_reached`: activation
success, the initial reading, one `(stop-flag, reading)` pair per sampling-loop
iteration, and the schedule of the settle phase run on completion. -/
structure ExecEnv where
  activateOk : Bool
  initReading : Option ℚ
  steps : List (Bool × Option ℚ)
  resume : ResumeEnv
deriving DecidableEq

/-- Exit taken by `_run_cutter_until_weight_reached`.  `uiError` is the
unhandled `AttributeError` from a phantom `ui.safe_update_scale_reading` call
propagating out of the function; `fuelOut` is the modelling artifact "the
loop is still polling when the schedule ran out" and is not an exit of the
Python function. -/
inductive ExecExit where
  | activationFailed
  | uiError
  | doneExit
  | stalledExit
  | stopExit
  | fuelOut
deriving DecidableEq

/-- Result of one cut-cycle executor call: exit taken, number of
`cutter.deactivate()` calls issued (including those inside
`_resume_until_stable`), actuator state at the end, accumulated processed mass
for the ingredient, and the recorded events. -/
structure ExecResult where
  exit : ExecExit
  deacts : Nat
  active : Bool
  acc : ℚ
  evs : List Ev
deriving DecidableEq

/-- Sampling loop of `_run_cutter_until_weight_reached`,
`src/main_flow.py:184-247`, as composed with the repository's `DashboardUI`
(the loop is itself unreachable — see `execRun` — but is modelled faithfully).
Per iteration: the stop flag is checked at the loop head (a set flag falls
through to the `finally` block, one deactivation); a non-missing reading makes
line 188 call the phantom `ui.safe_update_scale_reading`, raising
`AttributeError` inside the `try` — the `finally` deactivates once and the
exception propagates; a missing reading reuses `last` through the mass
filter, an accepted delta at or above `weight_stable_threshold` is added to
the accumulator and resets `no_change_count` while any other increments it;
then the completion check (deactivate, rotate turntable, settle phase — whose
own phantom-method raise at line 259 turns the exit into a propagating
exception — then the `finally` deactivates again) and the stall check
(deactivate, stall prompt, acknowledgement wait, `return`, `finally`
deactivates again). -/
def execLoop (S req : ℚ) (limit fc : Nat) (renv : ResumeEnv) (last : ℚ)
    (ncc : Nat) (acc : ℚ) : List (Bool × Option ℚ) → ExecResult
  | [] => ⟨ExecExit.fuelOut, 0, true, acc, []⟩
  | (stop, rd) :: rest =>
    if stop then ⟨ExecExit.stopExit, 1, false, acc, [Ev.deactivate]⟩
    else
      match rd with
      | some _ => ⟨ExecExit.uiError, 1, false, acc, [Ev.uiRaise, Ev.deactivate]⟩
      | none =>
        let f := massFilter last none
        let acc1 := if S ≤ f.delta then acc + f.delta else acc
        let ncc1 := if S ≤ f.delta then 0 else ncc + 1
        if req ≤ acc1 then
          let rr := resumeRun renv
          if rr.raised then
            ⟨ExecExit.uiError, 1 + rr.deacts + 1, false, acc1,
              Ev.deactivate :: Ev.rotate :: (rr.evs ++ [Ev.deactivate])⟩
          else
            ⟨ExecExit.doneExit, 1 + rr.deacts + 1, false, acc1,
              Ev.deactivate :: Ev.rotate :: (rr.evs ++ [Ev.deactivate])⟩
        else if limit ≤ ncc1 then
          ⟨ExecExit.stalledExit, 2, false, acc1,
            [Ev.deactivate, Ev.showStall, Ev.waitAck, Ev.deactivate]⟩
        else execLoop S req limit fc renv f.newLast ncc1 acc1 rest

/-- Whole call of `_run_cutter_until_weight_reached`,
`src/main_flow.py:167-247`, as composed with the repository's own
`DashboardUI`, for one ingredient with required mass `req` and
already-accumulated mass `acc0`: show the processing message; a failed
`cutter.activate()` logs and returns before the `try`/`finally` (no
deactivation, actuator never active).  After a successful activation,
`last_weight = get_weight() or 0.0` (line 178) is never `None`, so line 180
calls `self.ui.safe_update_scale_reading(last_weight)` — a method
`DashboardUI` does not define — after the `activate()` and before the
`try`/`finally`: the call always raises `AttributeError`, and the executor
exits erroring with the actuator still active, zero deactivate calls, and the
accumulator untouched.  The sampling loop (modelled by `execLoop`) and the
schedule fields of `env` are unreachable. -/
def execRun (S req : ℚ) (limit fc : Nat) (acc0 : ℚ) (env : ExecEnv) :
    ExecResult :=
  if env.activateOk then
    ⟨ExecExit.uiError, 0, true, acc0,
      [Ev.showProcessing, Ev.activate, Ev.uiRaise]⟩
  else ⟨ExecExit.activationFailed, 0, false, acc0, [Ev.showProcessing]⟩

/-- Character-list test for "does `pat` occur at the front". -/
def chPrefixOf : List Char → List Char → Bool
  | [], _ => true
  | _ :: _, [] => false
  | a :: as, b :: bs => a == b && chPrefixOf as bs

/-- Character-list substring occurrence, the semantics of Python's
`pat in s`. -/
def chHasSub (pat : List Char) : List Char → Bool
  | [] => chPrefixOf pat []
  | c :: rest => chPrefixOf pat (c :: rest) || chHasSub pat rest

/-- Test from `src/main_flow.py:302-304`: one detection, stringified and
lowercased, contains the substring `"unhealthy"` — Python's
`"unhealthy" in str(obj).lower()`. -/
def hasUnhealthyLabel (obj : String) : Bool :=
  chHasSub ("unhealthy".data) (obj.data.map Char.toLower)

/-- Quality classifier `MainController.is_healthy`, `src/main_flow.py:296-308`:
an empty (or missing) detection list is not healthy; otherwise the placement is
healthy exactly when no detection's lowercased string form contains
`"unhealthy"`.  Detections are modelled by their stringified form `str(obj)`. -/
def is_healthy (detections : List String) : Bool :=
  if detections.isEmpty then false
  else detections.all (fun obj => !hasUnhealthyLabel obj)

/-- Schedule for one iteration of the `_process_ingredient` loop: the stop-flag
value observed at the loop head, the detection list the camera returns for the
quality gate, and the cut-cycle schedule used if the gate passes. -/
structure RoundEnv where
  stopSet : Bool
  detections : List String
  exec : ExecEnv
deriving DecidableEq

/-- Result of `_process_ingredient`: the ingredient's accumulated mass when
control leaves the call, the recorded events, and whether the loop condition
was actually observed false (`completed = false` covers both running out of
schedule with the loop still going and an exception unwinding through the
call, which skips `_finish_ingredient`). -/
structure ProcResult where
  acc : ℚ
  evs : List Ev
  completed : Bool
deriving DecidableEq

/-- Events of `_finish_ingredient`, `src/main_flow.py:287-291`: report the net
grams processed (accumulated minus `pre_process_weight`) and block for a final
operator acknowledgement. -/
def finishEvs (acc pre : ℚ) : List Ev :=
  [Ev.reportGrams (acc - pre), Ev.waitAck]

/-- Ingredient sequencer `_process_ingredient`, `src/main_flow.py:130-142`
with `_prompt_user_to_place` (lines 144-147) and `_check_quality` (lines
149-161): while the accumulated mass is below the required mass and the stop
flag is unset, prompt placement and wait, run the quality gate ("Analyzing"
message plus capture); an unhealthy result prompts replacement, waits, and
restarts the loop; a healthy result runs the cut-cycle executor — if the
executor's phantom-method `AttributeError` propagates (`uiError`, which with
the repository's UI is every activation-successful call), it unwinds through
`_process_ingredient` too, skipping the finish step; otherwise the resulting
accumulated mass feeds the next iteration.  On a loop-condition exit (target
reached or stop flag set) `_finish_ingredient` always runs. -/
def procIngredientLoop (S : ℚ) (limit fc : Nat) (req pre : ℚ) (acc : ℚ) :
    List RoundEnv → ProcResult
  | [] =>
    if req ≤ acc then ⟨acc, finishEvs acc pre, true⟩
    else ⟨acc, [], false⟩
  | r :: rest =>
    if req ≤ acc ∨ r.stopSet then ⟨acc, finishEvs acc pre, true⟩
    else if is_healthy r.detections then
      let er := execRun S req limit fc acc r.exec
      if er.exit = ExecExit.uiError then
        ⟨er.acc, Ev.promptPlace :: Ev.waitAck :: Ev.analyze :: er.evs, false⟩
      else
        let res := procIngredientLoop S limit fc req pre er.acc rest
        ⟨res.acc,
          Ev.promptPlace :: Ev.waitAck :: Ev.analyze :: (er.evs ++ res.evs),
          res.completed⟩
    else
      let res := procIngredientLoop S limit fc req pre acc rest
      ⟨res.acc,
        Ev.promptPlace :: Ev.waitAck :: Ev.analyze :: Ev.promptReplace ::
          Ev.waitAck :: res.evs,
        res.completed⟩

/-- Order status, `src/order_manager.py:15`. -/
inductive OStatus where
  | pending
  | inProgress
  | completed
deriving DecidableEq

/-- Order as the controller loop sees it: identifier, status, and whether
fetching its ingredient map would succeed.  With the repository's
`DashboardUI` the fetch is unreachable (see `process_order`), so `fetchOk`
is never consulted; the ingredient map itself is irrelevant to the
order-level flow and is left out. -/
structure OrderM where
  oid : Nat
  status : OStatus
  fetchOk : Bool
deriving DecidableEq

/-- Test used by `get_pending_orders`, `src/order_manager.py:68-70`. -/
def isCompletedStatus : OStatus → Bool
  | OStatus.completed => true
  | _ => false

/-- Status assignment for the order with identifier `i`
(`Order.mark_in_progress` / `Order.mark_completed`,
`src/order_manager.py:17-21`, as it acts on the manager's order list). -/
def updStatus (i : Nat) (st : OStatus) (o : OrderM) : OrderM :=
  if o.oid = i then ⟨o.oid, st, o.fetchOk⟩ else o

/-- Order list after the order with identifier `i` changes status. -/
def markStatus (orders : List OrderM) (i : Nat) (st : OStatus) : List OrderM :=
  orders.map (updStatus i st)

/-- Pending-order view `OrderManager.get_pending_orders`,
`src/order_manager.py:68-70`: every order whose status is not completed,
in list order. -/
def get_pending_orders (orders : List OrderM) : List OrderM :=
  orders.filter (fun o => !isCompletedStatus o.status)

/-- Result of one `_process_order` call: the order list as left behind and
whether an exception is propagating out of the call. -/
structure OrderStepOut where
  orders : List OrderM
  raised : Bool
deriving DecidableEq

/-- Order sequencer `_process_order`, `src/main_flow.py:93-124`, as composed
with the repository's own `DashboardUI`: `order.mark_in_progress()` (line 95)
runs, then the display refresh at line 96 calls `OrderManager.update_ui`,
whose `ui.safe_update_orders(...)` (`src/order_manager.py:107`) names a
method `DashboardUI` does not define (it defines `safe_update_order`,
singular) — so the call always raises `AttributeError` outside any `try`.
The ingredient fetch and its containment handler (lines 98-105), the
ingredient loop and the completion marking are unreachable, and the
exception propagates to the caller. -/
def process_order (orders : List OrderM) (o : OrderM) : OrderStepOut :=
  ⟨markStatus orders o.oid OStatus.inProgress, true⟩

/-- One iteration of the top-level loop `MainController.run`,
`src/main_flow.py:32-36`, with `_wait_for_order` (lines 72-89) in the case
where pending orders exist: take the first pending order and process it.
`none` models the empty-queue branch (which blocks for an operator action
before creating a test order).  `run` has no exception handler, so a step
whose `raised` flag is set terminates the controller loop. -/
def run_step (orders : List OrderM) : Option OrderStepOut :=
  match get_pending_orders orders with
  | [] => none
  | o :: _ => some (process_order orders o)

/-- Model of `DashboardUI.wait_for_continue` called with `timeout=None`,
`src/dashboard_ui.py:113-121`: it clears `continue_event` and blocks on
`continue_event.wait(timeout=None)`, which returns `True` exactly when the
Continue button eventually sets the event and blocks forever otherwise
(modelled by `none`).  No other signal is consulted. -/
def wait_for_continue (continueEverPressed : Bool) : Option Bool :=
  if continueEverPressed then some true else none

/-- Model of `MainController._ui_wait_for_continue` with the default
`timeout=None`, `src/main_flow.py:327-350`: it calls `ui.wait_for_continue()`
directly (the polling fallback at lines 338-347 is reached only when the UI
rejects a non-`None` timeout argument).  The controller's stop-flag value is a
parameter only so the theorems can state that this path never consults it. -/
def ui_wait_for_continue (continueEverPressed stopSet : Bool) : Option Bool :=
  wait_for_continue continueEverPressed

theorem detFold_acc (S : ℚ) (ds : List ℚ) :
    ∀ st : DetState, (detFold S st ds).acc = st.acc + sumGE S ds := by
  induction ds with
  | nil => intro st; simp [detFold, sumGE]
  | cons d ds ih =>
    intro st
    have h1 : detFold S st (d :: ds) = detFold S (detStep S st d) ds := rfl
    rw [h1, ih]
    by_cases h : S ≤ d
    · simp only [detStep, if_pos h, sumGE, List.filter_cons, decide_eq_true_eq, h,
        if_pos, List.sum_cons]
      ring
    · simp only [detStep, if_neg h, sumGE, List.filter_cons, decide_eq_true_eq, h,
        if_neg, if_false]

theorem detRun_cons (S T : ℚ) (limit : Nat) (st : DetState) (d : ℚ) (ds : List ℚ) :
    detRun S T limit st (d :: ds) =
      (if T ≤ (detStep S st d).acc then ⟨detStep S st d, DetOutcome.Done, 1⟩
       else if limit ≤ (detStep S st d).ncc then
         ⟨detStep S st d, DetOutcome.Stalled, 1⟩
       else
         ⟨(detRun S T limit (detStep S st d) ds).state,
          (detRun S T limit (detStep S st d) ds).outcome,
          (detRun S T limit (detStep S st d) ds).used + 1⟩) := rfl

theorem detRun_used_le (S T : ℚ) (limit : Nat) (ds : List ℚ) :
    ∀ st : DetState, (detRun S T limit st ds).used ≤ ds.length := by
  induction ds with
  | nil => intro st; simp [detRun]
  | cons d ds ih =>
    intro st
    rw [detRun_cons]
    split
    · simp
    · split
      · simp
      · simpa using Nat.succ_le_succ (ih (detStep S st d))

theorem detRun_state_fold (S T : ℚ) (limit : Nat) (ds : List ℚ) :
    ∀ st : DetState,
      (detRun S T limit st ds).state =
        detFold S st (ds.take (detRun S T limit st ds).used) := by
  induction ds with
  | nil => intro st; simp [detRun, detFold]
  | cons d ds ih =>
    intro st
    rw [detRun_cons]
    split
    · simp [detFold]
    · split
      · simp [detFold]
      · simp only [List.take_succ_cons]
        have h1 : detFold S st
              (d :: (ds.take (detRun S T limit (detStep S st d) ds).used))
            = detFold S (detStep S st d)
              (ds.take (detRun S T limit (detStep S st d) ds).used) := rfl
        rw [h1]
        exact ih (detStep S st d)

theorem detRun_done_iff (S T : ℚ) (limit : Nat) (ds : List ℚ) :
    ∀ st : DetState, st.acc < T →
      ((detRun S T limit st ds).outcome = DetOutcome.Done ↔
        T ≤ (detRun S T limit st ds).state.acc) := by
  induction ds with
  | nil =>
    intro st hst
    simp only [detRun]
    constructor
    · intro h; exact absurd h (by simp)
    · intro h; exact absurd h (not_le.mpr hst)
  | cons d ds ih =>
    intro st hst
    rw [detRun_cons]
    split
    · next h => simpa using h
    · next h =>
      split
      · constructor
        · intro hc; exact absurd hc (by simp)
        · intro hc; exact absurd hc h
      · exact ih (detStep S st d) (not_le.mp h)

theorem detRun_prefix_lt (S T : ℚ) (limit : Nat) (ds : List ℚ) :
    ∀ st : DetState, st.acc < T →
      ∀ j < (detRun S T limit st ds).used, (detFold S st (ds.take j)).acc < T := by
  induction ds with
  | nil =>
    intro st hst j hj
    simp [detRun] at hj
  | cons d ds ih =>
    intro st hst j hj
    rw [detRun_cons] at hj
    match j with
    | 0 => simpa [detFold] using hst
    | Nat.succ j' =>
      revert hj
      split
      · intro hj; exact absurd hj (by simp)
      · split
        · intro hj; exact absurd hj (by simp)
        · next h2 h3 =>
          intro hj
          simp only [List.take_succ_cons]
          have h1 : detFold S st (d :: ds.take j')
              = detFold S (detStep S st d) (ds.take j') := rfl
          rw [h1]
          exact ih (detStep S st d) (not_le.mp h2) j' (by simpa using hj)

/-- C1: for the stall/completion detector with stable threshold `S` and target
`T`, the accumulated mass after any sequence of filtered deltas is the sum of
exactly the deltas at or above `S`; a delta at or above `S` resets
`no_change_count` to `0` and every other delta increments it; and the run
reports `Done` at exactly the first sample at which the accumulated mass
reaches `T` — the state at the `Done` exit is the fold over precisely the
consumed prefix, every strictly earlier prefix is below `T`, and a run that
exits without `Done` never had its accumulator reach `T`. -/
theorem detector_accumulates_and_done_first (S T : ℚ) (limit : Nat)
    (ds : List ℚ) :
    (detFold S dInit ds).acc = sumGE S ds
    ∧ (∀ st d, S ≤ d → detStep S st d = ⟨st.acc + d, 0⟩)
    ∧ (∀ st d, d < S → detStep S st d = ⟨st.acc, st.ncc + 1⟩)
    ∧ (0 < T → (detRun S T limit dInit ds).outcome = DetOutcome.Done →
        T ≤ (detRun S T limit dInit ds).state.acc
        ∧ (detRun S T limit dInit ds).state
            = detFold S dInit (ds.take (detRun S T limit dInit ds).used)
        ∧ ∀ j < (detRun S T limit dInit ds).used,
            (detFold S dInit (ds.take j)).acc < T)
    ∧ (0 < T → (detRun S T limit dInit ds).outcome ≠ DetOutcome.Done →
        (detRun S T limit dInit ds).state.acc < T) := by
  have hinit : ∀ T0 : ℚ, 0 < T0 → dInit.acc < T0 := by
    intro T0 h
    simpa [dInit] using h
  refine ⟨?_, ?_, ?_, ?_, ?_⟩
  · rw [detFold_acc]
    simp [dInit]
  · intro st d h
    simp [detStep, h]
  · intro st d h
    simp [detStep, not_le.mpr h]
  · intro hT hdone
    exact ⟨(detRun_done_iff S T limit ds dInit (hinit T hT)).mp hdone,
      detRun_state_fold S T limit ds dInit,
      detRun_prefix_lt S T limit ds dInit (hinit T hT)⟩
  · intro hT hne
    exact not_le.mp
      (fun h => hne ((detRun_done_iff S T limit ds dInit (hinit T hT)).mpr h))

unseal Rat.add in
/-- Witness for C1 at spec scenario A: threshold 10, target 100, deltas
`[15, 20, 30, 40]` — accumulated is the full sum 105, `Done` fires on the
fourth sample, every earlier prefix is below 100. -/
theorem detector_accumulates_and_done_first_witness :
    (detFold 10 dInit [15, 20, 30, 40]).acc = sumGE 10 [15, 20, 30, 40]
    ∧ ((100 : ℚ) ≤ (detRun 10 100 5 dInit [15, 20, 30, 40]).state.acc
       ∧ (detRun 10 100 5 dInit [15, 20, 30, 40]).state
           = detFold 10 dInit
             (([15, 20, 30, 40] : List ℚ).take
               (detRun 10 100 5 dInit [15, 20, 30, 40]).used)
       ∧ ∀ j < (detRun 10 100 5 dInit [15, 20, 30, 40]).used,
           (detFold 10 dInit (([15, 20, 30, 40] : List ℚ).take j)).acc < 100) :=
  ⟨(detector_accumulates_and_done_first 10 100 5 [15, 20, 30, 40]).1,
   (detector_accumulates_and_done_first 10 100 5 [15, 20, 30, 40]).2.2.2.1
     (by norm_num) (by decide)⟩

/-- C4 counterexample: with target 50, threshold 10, `no_change_limit` 3 and
deltas `[5, 3, 5, 0, 0, 0]`, the detector stalls already at the third sample
(the deltas 5, 3, 5 are themselves sub-threshold) and the accumulated mass at
the stall is 0, not 13 — sub-threshold deltas are never added. -/
theorem scenario_b_accumulated_zero :
    detRun 10 50 3 dInit [5, 3, 5, 0, 0, 0]
      = ⟨⟨0, 3⟩, DetOutcome.Stalled, 3⟩
    ∧ ¬ (detRun 10 50 3 dInit [5, 3, 5, 0, 0, 0]).state.acc = 13 := by
  constructor
  · decide
  · decide

/-- C4 as amended: with target 50, threshold 10 and `no_change_limit` 3, the
delta sequence `[5, 3, 5, 0, 0, 0]` makes the detector transition to Stalled at
the third sample — the first three deltas are already sub-threshold — with
accumulated mass 0 retained, and the detector is still Running after only the
first two. -/
theorem scenario_b_stalls_at_third_sample :
    (detRun 10 50 3 dInit [5, 3, 5, 0, 0, 0]).outcome = DetOutcome.Stalled
    ∧ (detRun 10 50 3 dInit [5, 3, 5, 0, 0, 0]).used = 3
    ∧ (detRun 10 50 3 dInit [5, 3, 5, 0, 0, 0]).state.acc = 0
    ∧ (detRun 10 50 3 dInit [5, 3]).outcome = DetOutcome.Running := by
  refine ⟨by decide, by decide, by decide, by decide⟩

/-- C2: the mass filter always stores the raw sample (or, for a missing
sample, the reused `last`) as the new `last`; a sample below `last` yields
delta 0 with no warning; a positive jump above `MAX_PLAUSIBLE_JUMP` yields
delta 0 with the warning logged; otherwise the delta is exactly `w - last`
with no warning; and a missing sample behaves as `w = last`. -/
theorem mass_filter_cases (last : ℚ) (wOpt : Option ℚ) :
    (massFilter last wOpt).newLast = wOpt.getD last
    ∧ (wOpt.getD last < last → massFilter last wOpt = ⟨0, false, wOpt.getD last⟩)
    ∧ (MAX_PLAUSIBLE_JUMP < wOpt.getD last - last →
        massFilter last wOpt = ⟨0, true, wOpt.getD last⟩)
    ∧ (last ≤ wOpt.getD last → wOpt.getD last - last ≤ MAX_PLAUSIBLE_JUMP →
        massFilter last wOpt = ⟨wOpt.getD last - last, false, wOpt.getD last⟩)
    ∧ massFilter last none = ⟨0, false, last⟩ := by
  refine ⟨?_, ?_, ?_, ?_, ?_⟩
  · simp only [massFilter]
    split <;> split <;> rfl
  · intro h
    have hd : wOpt.getD last - last < 0 := sub_neg.mpr h
    simp [massFilter, MAX_PLAUSIBLE_JUMP, hd,
      (by norm_num : ¬ ((5000 : ℚ) < 0))]
  · intro h
    have h0 : (0 : ℚ) ≤ wOpt.getD last - last :=
      le_trans (by norm_num [MAX_PLAUSIBLE_JUMP]) (le_of_lt h)
    have hd : ¬ (wOpt.getD last - last < 0) := not_lt.mpr h0
    simp [massFilter, hd, h]
  · intro h1 h2
    have h0 : (0 : ℚ) ≤ wOpt.getD last - last := sub_nonneg.mpr h1
    have hd : ¬ (wOpt.getD last - last < 0) := not_lt.mpr h0
    simp [massFilter, hd, not_lt.mpr h2]
  · simp [massFilter, MAX_PLAUSIBLE_JUMP,
      (by norm_num : ¬ ((5000 : ℚ) < 0))]

unseal Rat.sub in
/-- Witness for C2 at concrete readings: a drop from 100 to 95 emits delta 0
silently, a jump from 100 to 6000 (over the 5000 limit) emits delta 0 with the
warning, and a rise from 100 to 130 emits exactly 30. -/
theorem mass_filter_cases_witness :
    ((some (95 : ℚ)).getD 100 < 100
      ∧ massFilter 100 (some 95) = ⟨0, false, 95⟩)
    ∧ (MAX_PLAUSIBLE_JUMP < (some (6000 : ℚ)).getD 100 - 100
      ∧ massFilter 100 (some 6000) = ⟨0, true, 6000⟩)
    ∧ ((100 : ℚ) ≤ (some (130 : ℚ)).getD 100
      ∧ (some (130 : ℚ)).getD 100 - 100 ≤ MAX_PLAUSIBLE_JUMP
      ∧ massFilter 100 (some 130) = ⟨30, false, 130⟩) :=
  ⟨⟨by norm_num, (mass_filter_cases 100 (some 95)).2.1 (by norm_num)⟩,
   ⟨by norm_num [MAX_PLAUSIBLE_JUMP],
    (mass_filter_cases 100 (some 6000)).2.2.1
      (by norm_num [MAX_PLAUSIBLE_JUMP])⟩,
   ⟨by norm_num, by norm_num [MAX_PLAUSIBLE_JUMP],
    by
      have h := (mass_filter_cases 100 (some 130)).2.2.2.1 (by norm_num)
        (by norm_num [MAX_PLAUSIBLE_JUMP])
      rw [h]
      norm_num⟩⟩

theorem massFilter_delta_nonneg (last : ℚ) (rd : Option ℚ) :
    0 ≤ (massFilter last rd).delta := by
  by_cases hneg : rd.getD last - last < 0
  · simp [massFilter, hneg, MAX_PLAUSIBLE_JUMP,
      (by norm_num : ¬ ((5000 : ℚ) < 0))]
  · have h0 : 0 ≤ rd.getD last - last := le_of_not_lt hneg
    by_cases hj : MAX_PLAUSIBLE_JUMP < rd.getD last - last
    · simp [massFilter, hneg, hj]
    · simp [massFilter, hneg, hj, h0]

theorem execLoop_acc_mono (S req : ℚ) (limit fc : Nat) (renv : ResumeEnv)
    (steps : List (Bool × Option ℚ)) :
    ∀ last : ℚ, ∀ ncc : Nat, ∀ acc : ℚ,
      acc ≤ (execLoop S req limit fc renv last ncc acc steps).acc := by
  induction steps with
  | nil => intro last ncc acc; simp [execLoop]
  | cons p rest ih =>
    intro last ncc acc
    obtain ⟨stop, rd⟩ := p
    have hdelta : 0 ≤ (massFilter last none).delta :=
      massFilter_delta_nonneg last none
    simp only [execLoop]
    split
    · simp
    · cases rd with
      | some w => simp
      | none =>
        by_cases hS : S ≤ (massFilter last none).delta
        · have hacc1 : acc ≤ acc + (massFilter last none).delta :=
            le_add_of_nonneg_right hdelta
          simp only [if_pos hS]
          split
          · split
            · simpa using hacc1
            · simpa using hacc1
          · split
            · simpa using hacc1
            · exact le_trans hacc1 (ih (massFilter last none).newLast 0
                (acc + (massFilter last none).delta))
        · simp only [if_neg hS]
          split
          · split
            · simp
            · simp
          · split
            · simp
            · exact ih (massFilter last none).newLast (ncc + 1) acc

theorem execRun_acc_mono (S req : ℚ) (limit fc : Nat) (acc0 : ℚ)
    (env : ExecEnv) : acc0 ≤ (execRun S req limit fc acc0 env).acc := by
  simp only [execRun]
  split <;> simp

theorem procLoop_acc_mono (S : ℚ) (limit fc : Nat) (req pre : ℚ)
    (rounds : List RoundEnv) :
    ∀ acc : ℚ, acc ≤ (procIngredientLoop S limit fc req pre acc rounds).acc := by
  induction rounds with
  | nil =>
    intro acc
    simp only [procIngredientLoop]
    split <;> simp
  | cons r rest ih =>
    intro acc
    simp only [procIngredientLoop]
    split
    · simp
    · split
      · split
        · simpa using execRun_acc_mono S req limit fc acc r.exec
        · exact le_trans (execRun_acc_mono S req limit fc acc r.exec)
            (by simpa using ih (execRun S req limit fc acc r.exec).acc)
      · simpa using ih acc

/-- C8: the accumulated processed mass for an ingredient never decreases —
every accepted filter delta is non-negative, one cut-cycle executor call can
only grow the accumulator it was given, and the whole ingredient-processing
window (including stall prompts, operator acknowledgements and cut-cycle
restarts, which hand the stalled run's accumulator unchanged to the next
cycle) finishes with at least the mass it started with. -/
theorem accumulated_mass_monotone :
    (∀ last : ℚ, ∀ rd : Option ℚ, 0 ≤ (massFilter last rd).delta)
    ∧ (∀ S req : ℚ, ∀ limit fc : Nat, ∀ acc0 : ℚ, ∀ env : ExecEnv,
        acc0 ≤ (execRun S req limit fc acc0 env).acc)
    ∧ (∀ S : ℚ, ∀ limit fc : Nat, ∀ req pre acc0 : ℚ,
        ∀ rounds : List RoundEnv,
        acc0 ≤ (procIngredientLoop S limit fc req pre acc0 rounds).acc) :=
  ⟨massFilter_delta_nonneg,
   fun S req limit fc acc0 env => execRun_acc_mono S req limit fc acc0 env,
   fun S limit fc req pre acc0 rounds =>
     procLoop_acc_mono S limit fc req pre rounds acc0⟩

/-- C3 (code bug in the source): the cut-cycle executor cannot honour the
claimed guarantee because `src/main_flow.py:180` calls
`ui.safe_update_scale_reading` — undefined on the repository's `DashboardUI` —
after `cutter.activate()` and before the `try`/`finally`, and
`last_weight = get_weight() or 0.0` is never `None`, so every
activation-successful call raises `AttributeError` there: the executor exits
erroring with the actuator still active and zero deactivate calls, against
the claim (and the code's own comment at line 171, "ensure cutter is
deactivated on error/exit") that every exit path, erroring included,
deactivates exactly once and leaves the actuator deactivated.  In general the
executor issues no deactivation at all and leaves the actuator exactly as
activation left it. -/
theorem cutter_ui_raise_leaves_actuator_active :
    (∀ S req : ℚ, ∀ limit fc : Nat, ∀ acc0 : ℚ, ∀ env : ExecEnv,
        (execRun S req limit fc acc0 env).deacts = 0
        ∧ (execRun S req limit fc acc0 env).active = env.activateOk)
    ∧ execRun 500 100 20 20 0
        ⟨true, some 0, [(false, some 1000)], ⟨true, some 0, []⟩⟩
      = ⟨ExecExit.uiError, 0, true, 0,
         [Ev.showProcessing, Ev.activate, Ev.uiRaise]⟩ := by
  constructor
  · intro S req limit fc acc0 env
    cases henv : env.activateOk <;> simp [execRun, henv]
  · decide

/-- C10: whenever the ingredient-processing loop actually observes its exit
condition — the target reached, or equally the cancellation flag set mid-
ingredient — the finish step still runs: the event trace ends with the
report of the grams processed (accumulated minus the pre-processing weight)
followed by a blocking operator-acknowledgement wait. -/
theorem finish_step_always_runs (S : ℚ) (limit fc : Nat) (req pre : ℚ)
    (rounds : List RoundEnv) :
    ∀ acc : ℚ,
      (procIngredientLoop S limit fc req pre acc rounds).completed = true →
      ∃ t : List Ev,
        (procIngredientLoop S limit fc req pre acc rounds).evs
          = t ++ [Ev.reportGrams
              ((procIngredientLoop S limit fc req pre acc rounds).acc - pre),
              Ev.waitAck] := by
  induction rounds with
  | nil =>
    intro acc
    simp only [procIngredientLoop]
    split
    · intro _
      exact ⟨[], by simp [finishEvs]⟩
    · intro h
      exact absurd h (by simp)
  | cons r rest ih =>
    intro acc
    simp only [procIngredientLoop]
    split
    · intro _
      exact ⟨[], by simp [finishEvs]⟩
    · split
      · split
        · intro h
          exact absurd h (by simp)
        · intro hc
          obtain ⟨t, ht⟩ := ih (execRun S req limit fc acc r.exec).acc hc
          refine ⟨Ev.promptPlace :: Ev.waitAck :: Ev.analyze ::
            ((execRun S req limit fc acc r.exec).evs ++ t), ?_⟩
          simp [ht]
      · intro hc
        obtain ⟨t, ht⟩ := ih acc hc
        refine ⟨Ev.promptPlace :: Ev.waitAck :: Ev.analyze ::
          Ev.promptReplace :: Ev.waitAck :: t, ?_⟩
        simp [ht]

unseal Rat.sub in
/-- Witness for C10 at a shutdown mid-ingredient: the stop flag is set at the
head of the round with nothing yet accumulated, and the trace still ends with
the grams report and a blocking acknowledgement wait. -/
theorem finish_step_always_runs_witness :
    (procIngredientLoop 500 20 20 100 0 0
        [⟨true, [], ⟨false, none, [], ⟨false, none, []⟩⟩⟩]).completed = true
    ∧ ∃ t : List Ev,
        (procIngredientLoop 500 20 20 100 0 0
            [⟨true, [], ⟨false, none, [], ⟨false, none, []⟩⟩⟩]).evs
          = t ++ [Ev.reportGrams
              ((procIngredientLoop 500 20 20 100 0 0
                [⟨true, [], ⟨false, none, [], ⟨false, none, []⟩⟩⟩]).acc - 0),
              Ev.waitAck] :=
  ⟨by decide,
   finish_step_always_runs 500 20 20 100 0
     [⟨true, [], ⟨false, none, [], ⟨false, none, []⟩⟩⟩] 0 (by decide)⟩

/-- C6 counterexample: two consecutive quality-gate failures on concrete input.
After the first unhealthy verdict (events 0-4: placement prompt, wait,
analyze, replace prompt, wait) the loop restarts and issues a brand-new
placement prompt with its own acknowledgement wait (events 5-6) before the
gate is retried (event 7) — the gate is not retried for the same placement
prompt. -/
theorem unhealthy_retry_new_placement_prompt :
    (procIngredientLoop 500 20 20 100 0 0
        [⟨false, ["unhealthy potato"], ⟨false, none, [], ⟨false, none, []⟩⟩⟩,
         ⟨false, ["unhealthy potato"], ⟨false, none, [], ⟨false, none, []⟩⟩⟩]).evs
      = [Ev.promptPlace, Ev.waitAck, Ev.analyze, Ev.promptReplace, Ev.waitAck,
         Ev.promptPlace, Ev.waitAck, Ev.analyze, Ev.promptReplace, Ev.waitAck]
    ∧ (procIngredientLoop 500 20 20 100 0 0
        [⟨false, ["unhealthy potato"], ⟨false, none, [], ⟨false, none, []⟩⟩⟩,
         ⟨false, ["unhealthy potato"], ⟨false, none, [], ⟨false, none, []⟩⟩⟩]).evs[5]?
      = some Ev.promptPlace
    ∧ (procIngredientLoop 500 20 20 100 0 0
        [⟨false, ["unhealthy potato"], ⟨false, none, [], ⟨false, none, []⟩⟩⟩,
         ⟨false, ["unhealthy potato"], ⟨false, none, [], ⟨false, none, []⟩⟩⟩]).evs[7]?
      = some Ev.analyze := by
  refine ⟨?_, ?_, ?_⟩ <;> decide

/-- C6 as amended: an unhealthy quality-gate verdict prompts the operator to
replace the material and blocks for acknowledgement, does not advance to
cutting (no actuator event in the round), leaves the accumulator unchanged,
and then re-enters the loop — which issues a new placement prompt and its
acknowledgement wait before the quality gate is retried. -/
theorem unhealthy_round_trace (S : ℚ) (limit fc : Nat) (req pre acc : ℚ)
    (r : RoundEnv) (rest : List RoundEnv)
    (hh : is_healthy r.detections = false)
    (hacc : ¬ req ≤ acc) (hstop : r.stopSet = false) :
    (procIngredientLoop S limit fc req pre acc (r :: rest)).evs
      = Ev.promptPlace :: Ev.waitAck :: Ev.analyze :: Ev.promptReplace ::
        Ev.waitAck :: (procIngredientLoop S limit fc req pre acc rest).evs
    ∧ (procIngredientLoop S limit fc req pre acc (r :: rest)).acc
        = (procIngredientLoop S limit fc req pre acc rest).acc
    ∧ Ev.activate ∉ ([Ev.promptPlace, Ev.waitAck, Ev.analyze, Ev.promptReplace,
        Ev.waitAck] : List Ev)
    ∧ (∀ r2 : RoundEnv, ∀ rest2 : List RoundEnv, rest = r2 :: rest2 →
        r2.stopSet = false →
        ∃ t2 : List Ev, (procIngredientLoop S limit fc req pre acc rest).evs
          = Ev.promptPlace :: Ev.waitAck :: Ev.analyze :: t2) := by
  have hcond : ¬ (req ≤ acc ∨ r.stopSet = true) := by
    simp [hacc, hstop]
  have hunfold : procIngredientLoop S limit fc req pre acc (r :: rest)
      = ⟨(procIngredientLoop S limit fc req pre acc rest).acc,
         Ev.promptPlace :: Ev.waitAck :: Ev.analyze :: Ev.promptReplace ::
           Ev.waitAck :: (procIngredientLoop S limit fc req pre acc rest).evs,
         (procIngredientLoop S limit fc req pre acc rest).completed⟩ := by
    simp only [procIngredientLoop]
    rw [if_neg hcond, if_neg (by simp [hh] : ¬ is_healthy r.detections = true)]
  refine ⟨by rw [hunfold], by rw [hunfold], by decide, ?_⟩
  intro r2 rest2 hrest hstop2
  subst hrest
  have hcond2 : ¬ (req ≤ acc ∨ r2.stopSet = true) := by
    simp [hacc, hstop2]
  by_cases hh2 : is_healthy r2.detections = true
  · simp only [procIngredientLoop]
    rw [if_neg hcond2, if_pos hh2]
    split
    · exact ⟨(execRun S req limit fc acc r2.exec).evs, rfl⟩
    · exact ⟨(execRun S req limit fc acc r2.exec).evs
        ++ (procIngredientLoop S limit fc req pre
            (execRun S req limit fc acc r2.exec).acc rest2).evs, rfl⟩
  · refine ⟨Ev.promptReplace :: Ev.waitAck ::
      (procIngredientLoop S limit fc req pre acc rest2).evs, ?_⟩
    simp only [procIngredientLoop]
    rw [if_neg hcond2, if_neg hh2]

/-- Witness for the amended C6: a concrete unhealthy round followed by a round
with an empty detection list — the unhealthy round's five events are followed
by a fresh placement prompt, acknowledgement, and gate retry. -/
theorem unhealthy_round_trace_witness :
    (procIngredientLoop 500 20 20 100 0 0
        [⟨false, ["unhealthy potato"], ⟨false, none, [], ⟨false, none, []⟩⟩⟩,
         ⟨false, [], ⟨false, none, [], ⟨false, none, []⟩⟩⟩]).evs
      = Ev.promptPlace :: Ev.waitAck :: Ev.analyze :: Ev.promptReplace ::
        Ev.waitAck :: (procIngredientLoop 500 20 20 100 0 0
          [⟨false, [], ⟨false, none, [], ⟨false, none, []⟩⟩⟩]).evs
    ∧ ∃ t2 : List Ev,
        (procIngredientLoop 500 20 20 100 0 0
          [⟨false, [], ⟨false, none, [], ⟨false, none, []⟩⟩⟩]).evs
          = Ev.promptPlace :: Ev.waitAck :: Ev.analyze :: t2 :=
  have h := unhealthy_round_trace 500 20 20 100 0 0
    ⟨false, ["unhealthy potato"], ⟨false, none, [], ⟨false, none, []⟩⟩⟩
    [⟨false, [], ⟨false, none, [], ⟨false, none, []⟩⟩⟩]
    (by decide) (by decide) rfl
  ⟨h.1, h.2.2.2 ⟨false, [], ⟨false, none, [], ⟨false, none, []⟩⟩⟩ [] rfl rfl⟩

/-- C7 (code bug in the source): the order sequencer cannot reach its
fetch-failure containment because `src/main_flow.py:96` refreshes the display
through `OrderManager.update_ui`, whose `ui.safe_update_orders(...)`
(`src/order_manager.py:107`) names a method the repository's `DashboardUI`
does not define (it has `safe_update_order`), so every `_process_order` call
marks the order in-progress and then raises `AttributeError` outside any
`try` — before the ingredient fetch at lines 98-105 — and `run`
(lines 32-36) has no handler, so the controller loop terminates on the first
processed order, fetch failure or not. -/
theorem order_ui_refresh_always_raises :
    (∀ orders : List OrderM, ∀ o : OrderM,
        (process_order orders o).raised = true
        ∧ (process_order orders o).orders
            = markStatus orders o.oid OStatus.inProgress)
    ∧ run_step [⟨1, OStatus.pending, true⟩, ⟨2, OStatus.pending, true⟩]
        = some ⟨[⟨1, OStatus.inProgress, true⟩, ⟨2, OStatus.pending, true⟩],
            true⟩ := by
  exact ⟨fun orders o => ⟨rfl, rfl⟩, by decide⟩

/-- C9: the quality gate classifies a placement as healthy exactly when the
detection list is non-empty and no detection carries the unhealthy label
(`"unhealthy"` in its lowercased string form); in particular the empty
detection list is never healthy. -/
theorem is_healthy_iff (ds : List String) :
    (is_healthy ds = true ↔
      ds ≠ [] ∧ ∀ obj ∈ ds, hasUnhealthyLabel obj = false)
    ∧ is_healthy ([] : List String) = false := by
  constructor
  · cases ds with
    | nil => simp [is_healthy]
    | cons a rest => simp [is_healthy, List.all_eq_true]
  · rfl

/-- Witness for C9: a lone healthy-looking detection passes the gate and the
empty list fails it. -/
theorem is_healthy_iff_witness :
    is_healthy ["potato"] = true ∧ is_healthy ([] : List String) = false :=
  ⟨(is_healthy_iff ["potato"]).1.mpr ⟨by simp, by decide⟩,
   (is_healthy_iff []).2⟩

/-- C5 (code bug in the source): the operator-acknowledgement wait taken with
no timeout depends only on whether the Continue button is ever pressed — with
the stop flag set and no operator action it never releases (`none`), the stop
flag's value never changes the outcome, and only a Continue press releases
the wait.  This refutes the claimed behaviour, which the spec itself marks as
a required fix to the original code. -/
theorem ack_wait_ignores_stop_flag :
    ui_wait_for_continue false true = none
    ∧ (∀ c s t : Bool, ui_wait_for_continue c s = ui_wait_for_continue c t)
    ∧ (∀ s : Bool, ui_wait_for_continue true s = some true) :=
  ⟨rfl, fun _ _ _ => rfl, fun _ => rfl⟩
